import Mathlib

/-!
Shallow embedding of the turn-taking orchestrator in `src/orchestrator/main.py`
(`ParticipantProcessor` and the room event wiring in `main`), together with the
parts of its environment it consumes: the VAD, STT, answer ("govt") and TTS
HTTP collaborators, modelled as uninterpreted response functions.

Conventions of the embedding:
* byte strings are `List Nat`, PCM sample arrays are `List Int`;
* every HTTP call is resolved by an `Env` function; a call can end in an
  `aiohttp.ClientError` (caught inside the stage helper), in an arbitrary
  response with a status code, or in some other raised exception that
  propagates to the turn-level `try`/`except` (`CallOutcome.raised`);
* the per-session `asyncio` scheduling of this source is deterministic at the
  granularity we model: the frame loop suspends on the audio stream between
  iterations, so a turn task created by `asyncio.create_task` inside
  `handle_vad` begins running — acquiring the free `processing_lock` and
  executing up to its first network await — before the next frame is examined.
  A separate `Ev.turnDone` event marks that suspended task finishing its
  awaited pipeline and releasing the lock; all of the task's network effects
  are attributed to its start step.
-/

set_option maxRecDepth 4096

namespace Orchestrator

/-! ### Configuration constants (main.py lines 17, 26-30) -/

def BOT_IDENTITY : String := "bangla-bot"

def VAD_SAMPLE_RATE : Nat := 16000

def VAD_CHUNK_DURATION_MS : Nat := 30

def VAD_CHUNK_SIZE : Nat := VAD_SAMPLE_RATE * VAD_CHUNK_DURATION_MS / 1000

def SILENCE_DURATION_MS : Nat := 700

def MAX_SPEECH_DURATION_S : Nat := 20

/-- Raw byte strings (Python `bytes` / `bytearray` contents). -/
abbrev Bytes := List Nat

/-- Outcome of one outbound HTTP call.  `clientError` is an
`aiohttp.ClientError` (caught by the stage helper's `except` clause),
`raised` is any other exception escaping the call (it propagates to the
caller), and `response` carries the HTTP status and the decoded body. -/
inductive CallOutcome (α : Type) where
  | clientError
  | raised
  | response (status : Nat) (body : α)

/-- Decoded JSON body of an STT response: `result.get("transcription", "")`
reads an optional string field. -/
structure SttBody where
  transcription : Option String
deriving DecidableEq

/-- One decoded line of the answer service's streamed body.  The orchestrator
reads `event.get("type")` and `event.get("content", "")`, both optional. -/
structure GovtEvent where
  type : Option String
  content : Option String
deriving DecidableEq

/-- One line of the streamed answer body as the orchestrator sees it:
`none` stands for a line that is skipped (`if line:` falsy, or
`json.JSONDecodeError` hit `continue`), `some ev` for a decoded event. -/
abbrev GovtLine := Option GovtEvent

/-- The orchestrator's environment: the resampler (an external
`rtc.AudioResampler` with fixed parameters) and the response behaviour of the
four HTTP collaborators plus the MP3 decoder used during playback
(`AudioSegment.from_file` composed with `set_frame_rate`/`set_channels` and
`get_array_of_samples`; `none` models a raised decode exception). -/
structure Env where
  resample : Bytes → Bytes
  stt : Bytes → CallOutcome SttBody
  govt : String → CallOutcome (List GovtLine)
  tts : String → CallOutcome Bytes
  decode : Bytes → Option (List Int)

/-! ### Stage helpers (main.py lines 135-226) -/

/-- Python's `str.strip()` with no arguments: remove whitespace from both
ends.  Implemented over the string's character list so that it evaluates
by kernel reduction. -/
def pyStrip (s : String) : String :=
  String.mk (((s.data.dropWhile Char.isWhitespace).reverse.dropWhile
    Char.isWhitespace).reverse)

/-- `transcribe_audio` (lines 135-151): non-200 status or a client error
yield `None`; otherwise the `transcription` field (default `""`) is
stripped and an empty result becomes `None`.  `Except.error` is an
exception escaping the stage. -/
def transcribe_audio (env : Env) (audio_data : Bytes) : Except Unit (Option String) :=
  match env.stt audio_data with
  | .clientError => .ok none
  | .raised => .error ()
  | .response status body =>
    if status ≠ 200 then .ok none
    else
      let text := pyStrip (body.transcription.getD "")
      .ok (if text = "" then none else some text)

/-- Contribution of one streamed line to `full_response` in
`query_govt_api` (lines 164-171): only events whose `type` equals
`"answer_chunk"` contribute their `content`; undecodable or falsy lines and
every other event type — including `"error"` and `"final_data"` — add
nothing. -/
def govtLineContribution (line : GovtLine) : String :=
  match line with
  | none => ""
  | some ev => if ev.type = some "answer_chunk" then ev.content.getD "" else ""

/-- The `full_response` accumulation loop of `query_govt_api`. -/
def govtAccum (lines : List GovtLine) : String :=
  lines.foldl (fun acc line => acc ++ govtLineContribution line) ""

/-- `query_govt_api` (lines 153-176): non-200 status or a client error
yield `None`; otherwise the concatenation of `answer_chunk` contents is
returned, possibly the empty string. -/
def query_govt_api (env : Env) (text : String) : Except Unit (Option String) :=
  match env.govt text with
  | .clientError => .ok none
  | .raised => .error ()
  | .response status lines =>
    if status ≠ 200 then .ok none
    else .ok (some (govtAccum lines))

/-- `synthesize_speech` (lines 178-192): non-200 status or a client error
yield `None`; otherwise the raw body bytes are returned. -/
def synthesize_speech (env : Env) (text : String) : Except Unit (Option Bytes) :=
  match env.tts text with
  | .clientError => .ok none
  | .raised => .error ()
  | .response status body =>
    if status ≠ 200 then .ok none else .ok (some body)

/-! ### Playback (main.py lines 194-226) -/

/-- Samples per 20 ms playback frame at 48 kHz (line 208-209): 960. -/
def PLAYBACK_FRAME_SIZE : Nat := 48000 * 20 / 1000

/-- Fuel-indexed helper for the chunking loop `for i in range(0, len(pcm_data),
frame_size)` (lines 211-215): each iteration takes one frame-sized chunk and
zero-pads a short final chunk to exactly `PLAYBACK_FRAME_SIZE`.  The fuel is
an upper bound on the iteration count (the Python loop performs at most
`len(pcm)` iterations), used only to make the recursion structural. -/
def chunkPcmAux : Nat → List Int → List (List Int)
  | 0, _ => []
  | _, [] => []
  | fuel + 1, pcm@(_ :: _) =>
    let chunk := pcm.take PLAYBACK_FRAME_SIZE
    (chunk ++ List.replicate (PLAYBACK_FRAME_SIZE - chunk.length) 0)
      :: chunkPcmAux fuel (pcm.drop PLAYBACK_FRAME_SIZE)

/-- The playback frames produced from decoded PCM samples. -/
def chunkPcm (pcm : List Int) : List (List Int) := chunkPcmAux pcm.length pcm

/-! ### Observable effects of one session's processing -/

/-- Externally observable actions of a session, in emission order:
resampling an inbound frame, the VAD/STT/answer/TTS HTTP calls with their
payloads, pushing one playback frame to the shared `audio_source`, and the
start and end of a `trigger_conversation_turn` task run. -/
inductive Eff where
  | resampled (raw : Bytes)
  | vadCall (pcm : Bytes)
  | turnStart
  | sttCall (payload : Bytes)
  | govtCall (text : String)
  | ttsCall (text : String)
  | playFrame (samples : List Int)
  | turnEnd
deriving DecidableEq

/-- `play_audio_to_room` (lines 194-226): decode the MP3 payload (a raised
decode exception is caught by the method's own `try`/`except` and emits
nothing) and push the chunked, padded frames to the shared outbound
`audio_source`, one `capture_frame` per chunk. -/
def play_audio_to_room (env : Env) (audio_bytes : Bytes) : List Eff :=
  match env.decode audio_bytes with
  | none => []
  | some pcm => (chunkPcm pcm).map Eff.playFrame

/-! ### Session speech state (main.py lines 46-50, 62-133) -/

/-- The mutable speech-tracking fields of `ParticipantProcessor`
(`__init__`, lines 46-49).  `audio_buffer` models the contents of the
session's single `bytearray` object. -/
structure ProcState where
  audio_buffer : Bytes
  is_speaking : Bool
  silence_frames : Nat
  speech_duration_ms : Nat
deriving DecidableEq

/-- State installed by `__init__`: empty buffer, not speaking, zero
counters. -/
def initProc : ProcState :=
  { audio_buffer := [], is_speaking := false, silence_frames := 0, speech_duration_ms := 0 }

/-- `reset_speech_state` (lines 128-133): clears `is_speaking`, empties the
`bytearray` in place (`self.audio_buffer.clear()`), and zeroes both
counters. -/
def reset_speech_state (s : ProcState) : ProcState :=
  { s with is_speaking := false, audio_buffer := [], silence_frames := 0,
           speech_duration_ms := 0 }

/-- Result of the VAD call for one frame: a 200 response classifying the
frame as speech or non-speech (`vad_result.get("is_speech", False)`), or a
failed call (non-200 status, or `aiohttp.ClientError`), after which
`handle_vad` returns with the state untouched. -/
inductive VadOutcome where
  | speech
  | noSpeech
  | svcError
deriving DecidableEq

/-- The max-duration check at the end of `handle_vad` (lines 86-88),
executed on every successfully classified frame: one turn task is created
when the accumulated speech duration has reached the cap. -/
def maxDurationTriggers (s : ProcState) : Nat :=
  if MAX_SPEECH_DURATION_S * 1000 ≤ s.speech_duration_ms then 1 else 0

/-- `handle_vad` (lines 62-91) for one classified frame: returns the updated
state and the number of `trigger_conversation_turn` tasks created by
`asyncio.create_task` during the call (the silence-threshold check at lines
82-84 and the max-duration check at lines 86-88). -/
def handle_vad (s : ProcState) (cls : VadOutcome) (frame_data : Bytes) : ProcState × Nat :=
  match cls with
  | .svcError => (s, 0)
  | .speech =>
    let s1 := { s with
                silence_frames := 0,
                is_speaking := true,
                audio_buffer := s.audio_buffer ++ frame_data,
                speech_duration_ms := s.speech_duration_ms + VAD_CHUNK_DURATION_MS }
    (s1, maxDurationTriggers s1)
  | .noSpeech =>
    if s.is_speaking then
      let s1 := { s with silence_frames := s.silence_frames + 1 }
      ((s1),
        (if SILENCE_DURATION_MS ≤ s1.silence_frames * VAD_CHUNK_DURATION_MS then 1 else 0)
          + maxDurationTriggers s1)
    else (s, maxDurationTriggers s)

/-! ### The turn pipeline (main.py lines 93-126) -/

/-- The `try` body of `trigger_conversation_turn` (lines 104-121), applied
to the value read through `buffered_audio`: the STT, answer and TTS calls in
sequence, each falsy or failed result aborting the turn (`return` inside the
`try`, or an exception absorbed by the `except` clause), and finally the
playback frames.  The returned list is the sequence of effects the turn
performs after its start. -/
def run_turn_stages (env : Env) (buffered_audio : Bytes) : List Eff :=
  Eff.sttCall buffered_audio ::
    match transcribe_audio env buffered_audio with
    | .error _ => []
    | .ok none => []
    | .ok (some text) =>
      Eff.govtCall text ::
        match query_govt_api env text with
        | .error _ => []
        | .ok none => []
        | .ok (some resp) =>
          if resp = "" then []
          else
            Eff.ttsCall resp ::
              match synthesize_speech env resp with
              | .error _ => []
              | .ok none => []
              | .ok (some audio) =>
                if audio = [] then []
                else play_audio_to_room env audio

/-- `trigger_conversation_turn` (lines 93-126), executed under the session's
`processing_lock`.  In the source, `buffered_audio = self.audio_buffer`
(line 101) binds a second reference to the session's one `bytearray`
object, and `reset_speech_state()` (line 102) then runs
`self.audio_buffer.clear()`, which empties that same object in place; every
later read through `buffered_audio` therefore observes the post-clear
contents.  The embedding models the `bytearray` as the single cell
`ProcState.audio_buffer` and reads the transcription payload from that cell
after the in-place clear.  The lock itself is handled by the caller
(`stepEv`): `async with` releases it on every exit path, exceptions
included. -/
def trigger_conversation_turn (env : Env) (s : ProcState) : ProcState × List Eff :=
  if s.audio_buffer = [] then
    (reset_speech_state s, [Eff.turnStart])
  else
    let s1 := reset_speech_state s
    let buffered_audio := s1.audio_buffer
    (s1, Eff.turnStart :: run_turn_stages env buffered_audio)

/-! ### The per-session frame loop (main.py lines 53-60) -/

/-- A session as the frame loop sees it: the speech state plus whether the
`processing_lock` is currently held by an in-flight turn task. -/
structure Sess where
  proc : ProcState
  lockHeld : Bool
deriving DecidableEq

/-- Session state right after construction. -/
def initSess : Sess := { proc := initProc, lockHeld := false }

/-- Events driving one session: an inbound audio frame together with the
classification the VAD service returns for it, or the completion of the
suspended in-flight turn task (its last await finishing, after which
`async with` releases the lock). -/
inductive Ev where
  | frame (raw : Bytes) (cls : VadOutcome)
  | turnDone

/-- One iteration of the `async for` loop in `process_audio_stream` (lines
53-60), or the completion of a suspended turn task.  While the lock is held
the frame is skipped before any resampling or VAD call (`continue`, lines
56-57).  Otherwise the frame is resampled, classified, and fed to
`handle_vad`; if a turn task was created, that task starts before the next
frame is examined (see the scheduling note in the file header): with a
non-empty buffer it suspends at the transcription await and keeps the lock,
with an empty buffer it completes at once, never holding the lock across a
frame.  At most one task is created per frame from any reachable state
(`handle_vad_triggers_le_one`); a hypothetical second simultaneous task
would merely queue on the lock and repeat the empty-buffer no-op. -/
def stepEv (env : Env) (s : Sess) (e : Ev) : Sess × List Eff :=
  match e with
  | .turnDone =>
    if s.lockHeld then ({ s with lockHeld := false }, [Eff.turnEnd]) else (s, [])
  | .frame raw cls =>
    if s.lockHeld then (s, [])
    else
      let pcm := env.resample raw
      let (s1, trigs) := handle_vad s.proc cls pcm
      let effs := [Eff.resampled raw, Eff.vadCall pcm]
      if trigs = 0 then ({ s with proc := s1 }, effs)
      else
        let (s2, teffs) := trigger_conversation_turn env s1
        if s1.audio_buffer = [] then
          ({ proc := s2, lockHeld := false }, effs ++ teffs ++ [Eff.turnEnd])
        else
          ({ proc := s2, lockHeld := true }, effs ++ teffs)

/-- Process a list of events, collecting the emitted effects in order. -/
def runEvents (env : Env) (s : Sess) (evs : List Ev) : Sess × List Eff :=
  match evs with
  | [] => (s, [])
  | e :: rest =>
    let (s1, effs) := stepEv env s e
    let (s2, effs2) := runEvents env s1 rest
    (s2, effs ++ effs2)

/-! ### The session manager (main.py lines 231-257) -/

inductive TrackKind where
  | audio
  | video
deriving DecidableEq

/-- The room-level state touched by `on_track_subscribed`: the `processors`
dict keyed by participant identity, and one entry per frame-consumption task
created by `asyncio.create_task(processors[...].process_audio_stream(track))`. -/
structure RoomState where
  processors : List String
  frameLoops : List String
deriving DecidableEq

/-- `on_track_subscribed` (lines 250-257): for an audio track of a
non-bot participant, a `ParticipantProcessor` is created only if the
identity is not yet tracked, but the `asyncio.create_task(...)` starting a
frame-consumption loop sits outside that `if` and runs on every
subscription event. -/
def on_track_subscribed (st : RoomState) (kind : TrackKind) (identity : String) : RoomState :=
  if kind = TrackKind.audio ∧ identity ≠ BOT_IDENTITY then
    { processors :=
        if identity ∈ st.processors then st.processors else st.processors ++ [identity],
      frameLoops := st.frameLoops ++ [identity] }
  else st

/-! ### Concurrent playback on the shared outbound track (main.py 211-224, 236-237) -/

/-- Interleaving of two playback tasks' frame emissions on the shared
outbound track.  Each `capture_frame` in `play_audio_to_room` is followed by
an awaited `asyncio.sleep`, so between any two frames of one task the event
loop may run the other session's playback task; the schedule records which
task emits next (`true` = first task).  When the schedule is exhausted or
the chosen task is done, the remaining frames drain in order. -/
def mergeSchedule {α : Type} : List Bool → List α → List α → List α
  | [], as, bs => as ++ bs
  | true :: sch, a :: as, bs => a :: mergeSchedule sch as bs
  | true :: _, [], bs => bs
  | false :: sch, as, b :: bs => b :: mergeSchedule sch as bs
  | false :: _, as, [] => as

/-! ### Concrete environments used by witnesses and counterexamples -/

/-- Minimal environment: the resampler is the identity and every
collaborator call fails with a client error (each such failure is absorbed
by its stage helper). -/
def baseEnv : Env :=
  { resample := id,
    stt := fun _ => CallOutcome.clientError,
    govt := fun _ => CallOutcome.clientError,
    tts := fun _ => CallOutcome.clientError,
    decode := fun _ => none }

/-- Environment in which every stage succeeds: STT transcribes to
`"hello"`, the answer service streams one `answer_chunk` event `"world"`,
TTS returns two bytes, and decoding yields three PCM samples. -/
def happyEnv : Env :=
  { resample := id,
    stt := fun _ => CallOutcome.response 200 { transcription := some "hello" },
    govt := fun _ => CallOutcome.response 200
      [some { type := some "answer_chunk", content := some "world" }],
    tts := fun _ => CallOutcome.response 200 [1, 2],
    decode := fun _ => some [3, 4, 5] }

/-! ### Trace bookkeeping -/

/-- Number of turn-task starts recorded in an effect trace. -/
def turnStartCount (t : List Eff) : Nat := t.count Eff.turnStart

/-- Number of turn-task completions recorded in an effect trace. -/
def turnEndCount (t : List Eff) : Nat := t.count Eff.turnEnd

/-- Frame events all classified as non-speech. -/
def noSpeechEvents (raws : List Bytes) : List Ev :=
  raws.map (fun r => Ev.frame r VadOutcome.noSpeech)

/-- Frame events all classified as speech. -/
def speechEvents (raws : List Bytes) : List Ev :=
  raws.map (fun r => Ev.frame r VadOutcome.speech)

/-- Session state after the first speech-classified frame from a fresh
session: the resampled frame is buffered, 30 ms of speech accumulated. -/
def afterFirstSpeech (env : Env) (r : Bytes) : Sess :=
  { proc := { audio_buffer := env.resample r,
              is_speaking := true,
              silence_frames := 0,
              speech_duration_ms := VAD_CHUNK_DURATION_MS },
    lockHeld := false }

/-- Invariant maintained by every session step: an idle session carries no
stale buffer or counters; while the lock is held the speech state has just
been reset; and an unlocked session's accumulated duration is always below
the cap (it triggers the moment it reaches it). -/
def SessInv (s : Sess) : Prop :=
  (s.proc.is_speaking = false → s.proc.audio_buffer = [] ∧ s.proc.silence_frames = 0 ∧
    s.proc.speech_duration_ms = 0) ∧
  (s.lockHeld = true → s.proc = initProc) ∧
  (s.lockHeld = false → s.proc.speech_duration_ms < MAX_SPEECH_DURATION_S * 1000)

/-- Signed number of turn tasks opened by a trace segment. -/
def bal (t : List Eff) : ℤ := (turnStartCount t : ℤ) - turnEndCount t

/-- Number of currently in-flight turn tasks encoded by the lock flag. -/
def openN (b : Bool) : ℤ := if b then 1 else 0

/-- Every split point of the trace segment sees between `0` and `1` open
turn tasks, starting from `o` open ones. -/
def WellNested (o : ℤ) (t : List Eff) : Prop :=
  ∀ p q : List Eff, t = p ++ q → 0 ≤ o + bal p ∧ o + bal p ≤ 1

/-- Environment whose STT response carries no transcription field (read as
the empty string by `result.get("transcription", "")`). -/
def wsEnv : Env :=
  { baseEnv with stt := fun _ => CallOutcome.response 200 { transcription := none } }

/-- Whether a streamed answer line is a decodable event of type
`"answer_chunk"` — the only kind of line `query_govt_api` reads content
from. -/
def govtIsChunk (line : GovtLine) : Bool :=
  match line with
  | none => false
  | some ev => ev.type == some "answer_chunk"

/-- Environment whose answer stream carries one content chunk followed by
an error event, with every other stage succeeding. -/
def errStreamEnv : Env :=
  { resample := id,
    stt := fun _ => CallOutcome.response 200 { transcription := some "hello" },
    govt := fun _ => CallOutcome.response 200
      [some { type := some "answer_chunk", content := some "hi" },
       some { type := some "error", content := some "boom" }],
    tts := fun _ => CallOutcome.response 200 [7],
    decode := fun _ => some [2] }

/-- Environment used to exhibit two concurrently playing payloads: payload
`[1]` decodes to 961 samples of value 5 (two 20 ms frames at 48 kHz, the
second zero-padded), payload `[2]` to 961 samples of value 9. -/
def interleaveEnv : Env :=
  { baseEnv with
    decode := fun b =>
      if b = [1] then some (List.replicate 961 5) else some (List.replicate 961 9) }

theorem runEvents_append (env : Env) (s : Sess) (a b : List Ev) :
    runEvents env s (a ++ b) =
      ((runEvents env (runEvents env s a).1 b).1,
        (runEvents env s a).2 ++ (runEvents env (runEvents env s a).1 b).2) := by
  induction a generalizing s with
  | nil => simp [runEvents]
  | cons e rest ih => simp [runEvents, ih]

theorem turnStart_not_mem_play (env : Env) (a : Bytes) :
    Eff.turnStart ∉ play_audio_to_room env a := by
  unfold play_audio_to_room
  cases env.decode a with
  | none => simp
  | some pcm => simp

theorem turnEnd_not_mem_play (env : Env) (a : Bytes) :
    Eff.turnEnd ∉ play_audio_to_room env a := by
  unfold play_audio_to_room
  cases env.decode a with
  | none => simp
  | some pcm => simp

theorem turnStart_not_mem_stages (env : Env) (b : Bytes) :
    Eff.turnStart ∉ run_turn_stages env b := by
  unfold run_turn_stages
  intro h
  rcases List.mem_cons.mp h with h | h
  · exact Eff.noConfusion h
  · revert h
    split
    · simp
    · simp
    · intro h
      rcases List.mem_cons.mp h with h | h
      · exact Eff.noConfusion h
      · revert h
        split
        · simp
        · simp
        · split
          · simp
          · intro h
            rcases List.mem_cons.mp h with h | h
            · exact Eff.noConfusion h
            · revert h
              split
              · simp
              · simp
              · split
                · simp
                · exact turnStart_not_mem_play env _

theorem turnEnd_not_mem_stages (env : Env) (b : Bytes) :
    Eff.turnEnd ∉ run_turn_stages env b := by
  unfold run_turn_stages
  intro h
  rcases List.mem_cons.mp h with h | h
  · exact Eff.noConfusion h
  · revert h
    split
    · simp
    · simp
    · intro h
      rcases List.mem_cons.mp h with h | h
      · exact Eff.noConfusion h
      · revert h
        split
        · simp
        · simp
        · split
          · simp
          · intro h
            rcases List.mem_cons.mp h with h | h
            · exact Eff.noConfusion h
            · revert h
              split
              · simp
              · simp
              · split
                · simp
                · exact turnEnd_not_mem_play env _

theorem reset_speech_state_eq_init (s : ProcState) : reset_speech_state s = initProc := by
  cases s; rfl

theorem trigger_trace_shape (env : Env) (s : ProcState) :
    ∃ mid, (trigger_conversation_turn env s).2 = Eff.turnStart :: mid ∧
      Eff.turnStart ∉ mid ∧ Eff.turnEnd ∉ mid := by
  unfold trigger_conversation_turn
  split
  · exact ⟨[], rfl, by simp, by simp⟩
  · exact ⟨_, rfl, turnStart_not_mem_stages env _, turnEnd_not_mem_stages env _⟩

theorem trigger_turnStartCount (env : Env) (s : ProcState) :
    turnStartCount (trigger_conversation_turn env s).2 = 1 := by
  obtain ⟨mid, hm, hs, _⟩ := trigger_trace_shape env s
  simp [turnStartCount, hm, List.count_cons, List.count_eq_zero.mpr hs]

theorem trigger_turnEndCount (env : Env) (s : ProcState) :
    turnEndCount (trigger_conversation_turn env s).2 = 0 := by
  obtain ⟨mid, hm, _, he⟩ := trigger_trace_shape env s
  simp [turnEndCount, hm, List.count_cons, List.count_eq_zero.mpr he]

theorem trigger_resets (env : Env) (s : ProcState) :
    (trigger_conversation_turn env s).1 = initProc := by
  unfold trigger_conversation_turn
  split <;> simp [reset_speech_state_eq_init]

/-! ### Frame-run helper lemmas -/

/-- A run of consecutive silence frames that stays strictly below the
silence threshold only increments the silence counter: no turn task is
created and nothing else changes. -/
theorem run_silence_below (env : Env) (raws : List Bytes) :
    ∀ s : Sess, s.lockHeld = false → s.proc.is_speaking = true →
    s.proc.speech_duration_ms < MAX_SPEECH_DURATION_S * 1000 →
    (s.proc.silence_frames + raws.length) * VAD_CHUNK_DURATION_MS < SILENCE_DURATION_MS →
    (runEvents env s (noSpeechEvents raws)).1 =
      { s with proc := { s.proc with silence_frames := s.proc.silence_frames + raws.length } } ∧
    turnStartCount (runEvents env s (noSpeechEvents raws)).2 = 0 := by
  induction raws with
  | nil =>
    intro s _ _ _ _
    simp [noSpeechEvents, runEvents, turnStartCount]
  | cons r rest ih =>
    intro s hL hSp hDur hBound
    have hstep : stepEv env s (Ev.frame r VadOutcome.noSpeech) =
        ({ s with proc := { s.proc with silence_frames := s.proc.silence_frames + 1 } },
         [Eff.resampled r, Eff.vadCall (env.resample r)]) := by
      have h1 : ¬ SILENCE_DURATION_MS ≤
          (s.proc.silence_frames + 1) * VAD_CHUNK_DURATION_MS := by
        have : (s.proc.silence_frames + 1) * VAD_CHUNK_DURATION_MS ≤
            (s.proc.silence_frames + (rest.length + 1)) * VAD_CHUNK_DURATION_MS := by
          apply Nat.mul_le_mul_right
          omega
        simp only [List.length_cons] at hBound
        omega
      have h2 : ¬ MAX_SPEECH_DURATION_S * 1000 ≤ s.proc.speech_duration_ms := by omega
      simp [stepEv, hL, handle_vad, hSp, maxDurationTriggers, h1, h2]
    have hb2 : (s.proc.silence_frames + 1 + rest.length) * VAD_CHUNK_DURATION_MS <
        SILENCE_DURATION_MS := by
      have hfac : s.proc.silence_frames + 1 + rest.length =
          s.proc.silence_frames + (r :: rest).length := by
        simp only [List.length_cons]
        omega
      rw [hfac]
      exact hBound
    have hrest := ih { s with proc := { s.proc with silence_frames := s.proc.silence_frames + 1 } }
      (by simp [hL]) (by simp [hSp]) (by simpa using hDur) (by simpa using hb2)
    simp only [noSpeechEvents, List.map_cons, runEvents, hstep] at *
    refine ⟨?_, ?_⟩
    · rw [hrest.1]
      congr 2
      simp only [List.length_cons]
      omega
    · simp [turnStartCount, List.count_append, List.count_cons]
      have := hrest.2
      simp [turnStartCount] at this
      simpa using this

/-- After a turn has reset the speech state, further non-speech frames are
inert: skipped outright while the turn task still holds the lock, and
no-ops on the idle state once it has been released. -/
theorem run_noSpeech_after_reset (env : Env) (raws : List Bytes) :
    ∀ b : Bool, (runEvents env ⟨initProc, b⟩ (noSpeechEvents raws)).1 = ⟨initProc, b⟩ ∧
      turnStartCount (runEvents env ⟨initProc, b⟩ (noSpeechEvents raws)).2 = 0 := by
  induction raws with
  | nil =>
    intro b
    simp [noSpeechEvents, runEvents, turnStartCount]
  | cons r rest ih =>
    intro b
    have hstep : stepEv env ⟨initProc, b⟩ (Ev.frame r VadOutcome.noSpeech) =
        (⟨initProc, b⟩, if b then [] else [Eff.resampled r, Eff.vadCall (env.resample r)]) := by
      cases b with
      | true => simp [stepEv]
      | false => simp [stepEv, handle_vad, initProc, maxDurationTriggers,
          MAX_SPEECH_DURATION_S]
    simp only [noSpeechEvents, List.map_cons, runEvents, hstep]
    have hrest := ih b
    simp only [noSpeechEvents] at hrest
    refine ⟨hrest.1, ?_⟩
    cases b <;>
      simp [turnStartCount, List.count_append, List.count_cons] <;>
      · have := hrest.2
        simp [turnStartCount] at this
        simpa using this

theorem turnStartCount_append (a b : List Eff) :
    turnStartCount (a ++ b) = turnStartCount a + turnStartCount b := by
  simp [turnStartCount, List.count_append]

theorem turnEndCount_append (a b : List Eff) :
    turnEndCount (a ++ b) = turnEndCount a + turnEndCount b := by
  simp [turnEndCount, List.count_append]

/-- A non-speech frame whose accumulated silence reaches the threshold
creates exactly one turn task; the task's start resets the speech state. -/
theorem step_silence_trigger (env : Env) (raw : Bytes) (s : Sess)
    (hL : s.lockHeld = false) (hSp : s.proc.is_speaking = true)
    (hDur : s.proc.speech_duration_ms < MAX_SPEECH_DURATION_S * 1000)
    (h700 : SILENCE_DURATION_MS ≤ (s.proc.silence_frames + 1) * VAD_CHUNK_DURATION_MS) :
    ∃ b : Bool, (stepEv env s (Ev.frame raw VadOutcome.noSpeech)).1 = ⟨initProc, b⟩ ∧
      turnStartCount (stepEv env s (Ev.frame raw VadOutcome.noSpeech)).2 = 1 := by
  have h2 : ¬ MAX_SPEECH_DURATION_S * 1000 ≤ s.proc.speech_duration_ms := by omega
  simp only [stepEv, hL, Bool.false_eq_true, if_false, handle_vad, hSp, if_true,
    maxDurationTriggers, h700, if_pos, h2, if_neg, Nat.add_zero]
  split
  · simp_all
  · by_cases hbuf : s.proc.audio_buffer = []
    · refine ⟨false, ?_, ?_⟩
      · simp [hbuf, trigger_resets]
      · simp only [hbuf, if_pos]
        rw [turnStartCount_append, turnStartCount_append, trigger_turnStartCount]
        simp [turnStartCount]
    · refine ⟨true, ?_, ?_⟩
      · simp [hbuf, trigger_resets]
      · simp only [hbuf, if_neg, if_false]
        rw [turnStartCount_append, trigger_turnStartCount]
        simp [turnStartCount]

/-- A speech frame that lifts the accumulated speech duration to the
maximum creates exactly one turn task. -/
theorem step_speech_trigger (env : Env) (raw : Bytes) (s : Sess)
    (hL : s.lockHeld = false)
    (hcap : MAX_SPEECH_DURATION_S * 1000 ≤ s.proc.speech_duration_ms + VAD_CHUNK_DURATION_MS) :
    turnStartCount (stepEv env s (Ev.frame raw VadOutcome.speech)).2 = 1 := by
  simp only [stepEv, hL, Bool.false_eq_true, if_false, handle_vad, maxDurationTriggers]
  rw [if_pos hcap]
  split
  · simp_all
  · split
    · rw [turnStartCount_append, turnStartCount_append, trigger_turnStartCount]
      simp [turnStartCount]
    · rw [turnStartCount_append, trigger_turnStartCount]
      simp [turnStartCount]

/-- C3: starting from any unlocked Speaking state with a fresh silence run
(and speech duration below the cap, as in every reachable unlocked state),
consecutive silence totalling less than the 700 ms threshold never creates a
turn task, while consecutive silence totalling at least 700 ms creates
exactly one turn task and clears the speech state: buffer emptied, silence
counter and speech duration zeroed, `is_speaking` back to false. -/
theorem silence_turn_threshold (env : Env) (s : Sess) (raws : List Bytes)
    (hL : s.lockHeld = false) (hSp : s.proc.is_speaking = true)
    (h0 : s.proc.silence_frames = 0)
    (hDur : s.proc.speech_duration_ms < MAX_SPEECH_DURATION_S * 1000) :
    (raws.length * VAD_CHUNK_DURATION_MS < SILENCE_DURATION_MS →
      turnStartCount (runEvents env s (noSpeechEvents raws)).2 = 0) ∧
    (SILENCE_DURATION_MS ≤ raws.length * VAD_CHUNK_DURATION_MS →
      turnStartCount (runEvents env s (noSpeechEvents raws)).2 = 1 ∧
      (runEvents env s (noSpeechEvents raws)).1.proc = initProc) := by
  constructor
  · intro hlt
    have hb : (s.proc.silence_frames + raws.length) * VAD_CHUNK_DURATION_MS <
        SILENCE_DURATION_MS := by
      rw [h0]
      simpa using hlt
    exact (run_silence_below env raws s hL hSp hDur hb).2
  · intro hge
    have h24 : 24 ≤ raws.length := by
      simp only [VAD_CHUNK_DURATION_MS, SILENCE_DURATION_MS] at hge
      omega
    have h23lt : 23 < raws.length := by omega
    have hlen23 : (raws.take 23).length = 23 := by
      rw [List.length_take]
      omega
    have hsplit : noSpeechEvents raws =
        (noSpeechEvents (raws.take 23) ++ [Ev.frame raws[23] VadOutcome.noSpeech]) ++
          noSpeechEvents (raws.drop 24) := by
      have hr : raws = raws.take 23 ++ raws[23] :: raws.drop 24 := by
        conv_lhs => rw [← List.take_append_drop 23 raws]
        rw [List.drop_eq_getElem_cons h23lt]
      conv_lhs => rw [hr]
      simp only [noSpeechEvents, List.map_append, List.map_cons, List.map_nil,
        List.append_assoc, List.singleton_append, List.cons_append, List.nil_append]
    have hA := run_silence_below env (raws.take 23) s hL hSp hDur
      (by rw [h0, hlen23]; decide)
    have hAL : ((runEvents env s (noSpeechEvents (raws.take 23))).1).lockHeld = false := by
      rw [hA.1]
      exact hL
    have hASp : ((runEvents env s (noSpeechEvents (raws.take 23))).1).proc.is_speaking = true := by
      rw [hA.1]
      exact hSp
    have hADur : ((runEvents env s (noSpeechEvents (raws.take 23))).1).proc.speech_duration_ms <
        MAX_SPEECH_DURATION_S * 1000 := by
      rw [hA.1]
      exact hDur
    have hA700 : SILENCE_DURATION_MS ≤
        (((runEvents env s (noSpeechEvents (raws.take 23))).1).proc.silence_frames + 1) *
          VAD_CHUNK_DURATION_MS := by
      rw [hA.1]
      simp only [hlen23, h0]
      decide
    obtain ⟨b, hstate, hcount⟩ := step_silence_trigger env raws[23]
      (runEvents env s (noSpeechEvents (raws.take 23))).1 hAL hASp hADur hA700
    have hB := run_noSpeech_after_reset env (raws.drop 24) b
    rw [hsplit, runEvents_append, runEvents_append]
    simp only [runEvents, List.append_nil]
    rw [hstate]
    refine ⟨?_, ?_⟩
    · rw [turnStartCount_append, turnStartCount_append, hA.2, hcount, hB.2]
    · rw [hB.1]

/-- A run of consecutive speech frames that keeps the accumulated duration
strictly below the cap buffers every resampled frame and creates no turn
task. -/
theorem run_speech_below (env : Env) (raws : List Bytes) :
    ∀ s : Sess, s.lockHeld = false → s.proc.is_speaking = true →
    s.proc.silence_frames = 0 →
    s.proc.speech_duration_ms + raws.length * VAD_CHUNK_DURATION_MS <
      MAX_SPEECH_DURATION_S * 1000 →
    (runEvents env s (speechEvents raws)).1 =
      { s with proc := { s.proc with
          audio_buffer := s.proc.audio_buffer ++ (raws.map env.resample).flatten,
          speech_duration_ms :=
            s.proc.speech_duration_ms + raws.length * VAD_CHUNK_DURATION_MS } } ∧
    turnStartCount (runEvents env s (speechEvents raws)).2 = 0 := by
  induction raws with
  | nil =>
    intro s _ _ _ _
    simp [speechEvents, runEvents, turnStartCount]
  | cons r rest ih =>
    intro s hL hSp h0 hBound
    have hle : VAD_CHUNK_DURATION_MS ≤ (rest.length + 1) * VAD_CHUNK_DURATION_MS :=
      Nat.le_mul_of_pos_left VAD_CHUNK_DURATION_MS (by omega)
    have hmul : (rest.length + 1) * VAD_CHUNK_DURATION_MS =
        rest.length * VAD_CHUNK_DURATION_MS + VAD_CHUNK_DURATION_MS :=
      Nat.succ_mul rest.length VAD_CHUNK_DURATION_MS
    simp only [List.length_cons] at hBound
    have hstep : stepEv env s (Ev.frame r VadOutcome.speech) =
        ({ s with proc := { s.proc with
            silence_frames := 0, is_speaking := true,
            audio_buffer := s.proc.audio_buffer ++ env.resample r,
            speech_duration_ms := s.proc.speech_duration_ms + VAD_CHUNK_DURATION_MS } },
         [Eff.resampled r, Eff.vadCall (env.resample r)]) := by
      have hnc : ¬ MAX_SPEECH_DURATION_S * 1000 ≤
          s.proc.speech_duration_ms + VAD_CHUNK_DURATION_MS := by omega
      simp [stepEv, hL, handle_vad, maxDurationTriggers, hnc]
    have hbnd2 : s.proc.speech_duration_ms + VAD_CHUNK_DURATION_MS +
        rest.length * VAD_CHUNK_DURATION_MS < MAX_SPEECH_DURATION_S * 1000 := by omega
    have hrest := ih { s with proc := { s.proc with
        silence_frames := 0, is_speaking := true,
        audio_buffer := s.proc.audio_buffer ++ env.resample r,
        speech_duration_ms := s.proc.speech_duration_ms + VAD_CHUNK_DURATION_MS } }
      (by simp [hL]) (by simp) (by simp) hbnd2
    simp only [speechEvents, List.map_cons, runEvents, hstep] at *
    refine ⟨?_, ?_⟩
    · rw [hrest.1]
      congr 1
      congr 1
      · simp only [List.map_cons, List.flatten_cons]
        rw [List.append_assoc]
      · exact hSp.symm
      · exact h0.symm
      · simp only [List.length_cons]
        omega
    · simp only [turnStartCount_append]
      have := hrest.2
      simp only [turnStartCount] at this ⊢
      simp [this, List.count_cons]

/-- C9: fed only speech-classified frames from a fresh session, the session
creates no turn task while the total accumulated duration stays below the
20 s cap, and creates a turn task as soon as the accumulated duration
reaches the cap, bounding the speech buffer's growth. -/
theorem max_duration_triggers_turn (env : Env) (raws : List Bytes) :
    (raws.length * VAD_CHUNK_DURATION_MS < MAX_SPEECH_DURATION_S * 1000 →
      turnStartCount (runEvents env initSess (speechEvents raws)).2 = 0) ∧
    (MAX_SPEECH_DURATION_S * 1000 ≤ raws.length * VAD_CHUNK_DURATION_MS →
      1 ≤ turnStartCount (runEvents env initSess (speechEvents raws)).2) := by
  constructor
  · intro hlt
    cases raws with
    | nil => simp [speechEvents, runEvents, turnStartCount]
    | cons r rest =>
      have hstep : stepEv env initSess (Ev.frame r VadOutcome.speech) =
          (afterFirstSpeech env r, [Eff.resampled r, Eff.vadCall (env.resample r)]) := by
        have hnc : ¬ MAX_SPEECH_DURATION_S * 1000 ≤ VAD_CHUNK_DURATION_MS := by decide
        simp [stepEv, initSess, initProc, handle_vad, maxDurationTriggers, hnc,
          afterFirstSpeech]
      have hle : VAD_CHUNK_DURATION_MS ≤ (rest.length + 1) * VAD_CHUNK_DURATION_MS :=
        Nat.le_mul_of_pos_left VAD_CHUNK_DURATION_MS (by omega)
      have hmul : (rest.length + 1) * VAD_CHUNK_DURATION_MS =
          rest.length * VAD_CHUNK_DURATION_MS + VAD_CHUNK_DURATION_MS :=
        Nat.succ_mul rest.length VAD_CHUNK_DURATION_MS
      simp only [List.length_cons] at hlt
      have hb : VAD_CHUNK_DURATION_MS + rest.length * VAD_CHUNK_DURATION_MS <
          MAX_SPEECH_DURATION_S * 1000 := by omega
      have hrest := (run_speech_below env rest (afterFirstSpeech env r) rfl rfl rfl hb).2
      simp only [speechEvents, List.map_cons, runEvents, hstep]
      simp only [turnStartCount_append]
      simp only [speechEvents] at hrest
      simp only [turnStartCount] at hrest ⊢
      simp [hrest, List.count_cons]
  · intro hge
    have h667 : 667 ≤ raws.length := by
      simp only [VAD_CHUNK_DURATION_MS, MAX_SPEECH_DURATION_S] at hge
      omega
    cases raws with
    | nil => simp at h667
    | cons r rest =>
      have hr666 : 666 ≤ rest.length := by
        simp only [List.length_cons] at h667
        omega
      have h665lt : 665 < rest.length := by omega
      have hlen665 : (rest.take 665).length = 665 := by
        rw [List.length_take]
        omega
      have hsplit : speechEvents (r :: rest) =
          ((Ev.frame r VadOutcome.speech :: speechEvents (rest.take 665)) ++
            [Ev.frame rest[665] VadOutcome.speech]) ++
            speechEvents (rest.drop 666) := by
        have hrw : rest = rest.take 665 ++ rest[665] :: rest.drop 666 := by
          conv_lhs => rw [← List.take_append_drop 665 rest]
          rw [List.drop_eq_getElem_cons h665lt]
        conv_lhs => rw [hrw]
        simp only [speechEvents, List.map_cons, List.map_append, List.map_nil,
          List.append_assoc, List.singleton_append, List.cons_append, List.nil_append]
      have hstep : stepEv env initSess (Ev.frame r VadOutcome.speech) =
          (afterFirstSpeech env r, [Eff.resampled r, Eff.vadCall (env.resample r)]) := by
        have hnc : ¬ MAX_SPEECH_DURATION_S * 1000 ≤ VAD_CHUNK_DURATION_MS := by decide
        simp [stepEv, initSess, initProc, handle_vad, maxDurationTriggers, hnc,
          afterFirstSpeech]
      have hb : VAD_CHUNK_DURATION_MS + (rest.take 665).length * VAD_CHUNK_DURATION_MS <
          MAX_SPEECH_DURATION_S * 1000 := by
        rw [hlen665]
        decide
      have hA := run_speech_below env (rest.take 665) (afterFirstSpeech env r) rfl rfl rfl hb
      have hcap : MAX_SPEECH_DURATION_S * 1000 ≤
          ((runEvents env (afterFirstSpeech env r)
              (speechEvents (rest.take 665))).1).proc.speech_duration_ms +
            VAD_CHUNK_DURATION_MS := by
        rw [hA.1]
        simp only [afterFirstSpeech, hlen665]
        decide
      have hAL : ((runEvents env (afterFirstSpeech env r)
          (speechEvents (rest.take 665))).1).lockHeld = false := by
        rw [hA.1]
        rfl
      have hx := step_speech_trigger env rest[665]
        (runEvents env (afterFirstSpeech env r) (speechEvents (rest.take 665))).1 hAL hcap
      rw [hsplit, runEvents_append, runEvents_append]
      simp only [runEvents, hstep, List.append_nil]
      simp only [turnStartCount_append]
      rw [hx]
      omega

/-! ### Reachability invariant -/

/-- From any state whose accumulated duration is below the cap — the case
for every reachable unlocked state, see `SessInv` — one classified frame
creates at most one turn task: the silence-threshold check and the
max-duration check never both fire on the same frame. -/
theorem handle_vad_triggers_le_one (s : ProcState) (cls : VadOutcome) (d : Bytes)
    (h : s.speech_duration_ms < MAX_SPEECH_DURATION_S * 1000) :
    (handle_vad s cls d).2 ≤ 1 := by
  have hm : maxDurationTriggers s = 0 := by
    simp only [maxDurationTriggers]
    rw [if_neg]
    omega
  cases cls with
  | svcError => simp [handle_vad]
  | speech =>
    simp only [handle_vad, maxDurationTriggers]
    split <;> omega
  | noSpeech =>
    cases hsp : s.is_speaking with
    | true =>
      have hm1 : maxDurationTriggers
          { audio_buffer := s.audio_buffer,
            is_speaking := true,
            silence_frames := s.silence_frames + 1,
            speech_duration_ms := s.speech_duration_ms } = 0 := by
        simp only [maxDurationTriggers]
        rw [if_neg]
        simpa using h
      simp only [handle_vad, hsp, if_true, hm1]
      split <;> omega
    | false =>
      simp [handle_vad, hsp, hm]

theorem sessInv_init : SessInv initSess := by
  refine ⟨?_, ?_, ?_⟩ <;> simp [initSess, initProc, MAX_SPEECH_DURATION_S]

theorem sessInv_step (env : Env) (s : Sess) (e : Ev) (h : SessInv s) :
    SessInv (stepEv env s e).1 := by
  obtain ⟨h1, h2, h3⟩ := h
  cases e with
  | turnDone =>
    cases hlk : s.lockHeld with
    | true =>
      have hp := h2 hlk
      simp only [stepEv, hlk, if_true]
      refine ⟨?_, ?_, ?_⟩ <;> simp [hp, initProc, MAX_SPEECH_DURATION_S]
    | false =>
      simp only [stepEv, hlk, Bool.false_eq_true, if_false]
      exact ⟨h1, h2, h3⟩
  | frame raw cls =>
    cases hlk : s.lockHeld with
    | true =>
      simp only [stepEv, hlk, if_true]
      exact ⟨h1, h2, h3⟩
    | false =>
      have hdur := h3 hlk
      cases cls with
      | svcError =>
        simp only [stepEv, hlk, Bool.false_eq_true, if_false, handle_vad, if_pos, if_true]
        refine ⟨?_, ?_, ?_⟩ <;> simp [hlk]
        · exact h1
        · exact hdur
      | speech =>
        by_cases hcap : MAX_SPEECH_DURATION_S * 1000 ≤
            s.proc.speech_duration_ms + VAD_CHUNK_DURATION_MS
        · simp only [stepEv, hlk, Bool.false_eq_true, if_false, handle_vad,
            maxDurationTriggers]
          rw [if_pos hcap]
          split
          · simp_all
          · split <;>
              · refine ⟨?_, ?_, ?_⟩ <;>
                  simp [trigger_resets, initProc, MAX_SPEECH_DURATION_S]
        · simp only [stepEv, hlk, Bool.false_eq_true, if_false, handle_vad,
            maxDurationTriggers]
          rw [if_neg hcap]
          simp only [if_pos, if_true]
          refine ⟨?_, ?_, ?_⟩ <;> simp [hlk]
          omega
      | noSpeech =>
        cases hsp : s.proc.is_speaking with
        | false =>
          have hmax : ¬ MAX_SPEECH_DURATION_S * 1000 ≤ s.proc.speech_duration_ms := by
            omega
          simp only [stepEv, hlk, Bool.false_eq_true, if_false, handle_vad, hsp,
            maxDurationTriggers]
          rw [if_neg hmax]
          simp only [if_pos, if_true]
          refine ⟨?_, ?_, ?_⟩ <;> simp [hlk]
          · exact h1
          · exact hdur
        | true =>
          have hmax : ¬ MAX_SPEECH_DURATION_S * 1000 ≤ s.proc.speech_duration_ms := by
            omega
          by_cases h700 : SILENCE_DURATION_MS ≤
              (s.proc.silence_frames + 1) * VAD_CHUNK_DURATION_MS
          · simp only [stepEv, hlk, Bool.false_eq_true, if_false, handle_vad, hsp, if_true,
              maxDurationTriggers]
            rw [if_pos h700, if_neg hmax]
            split
            · simp_all
            · split <;>
                · refine ⟨?_, ?_, ?_⟩ <;>
                    simp [trigger_resets, initProc, MAX_SPEECH_DURATION_S]
          · simp only [stepEv, hlk, Bool.false_eq_true, if_false, handle_vad, hsp, if_true,
              maxDurationTriggers]
            rw [if_neg h700, if_neg hmax]
            simp only [if_pos, if_true]
            refine ⟨?_, ?_, ?_⟩ <;> simp [hlk, hsp]
            exact hdur

theorem sessInv_run (env : Env) (s : Sess) (evs : List Ev) (h : SessInv s) :
    SessInv (runEvents env s evs).1 := by
  induction evs generalizing s with
  | nil => simpa [runEvents] using h
  | cons e rest ih =>
    simp only [runEvents]
    exact ih _ (sessInv_step env s e h)

/-! ### Well-nested turn markers (for turn exclusivity) -/

theorem bal_append (a b : List Eff) : bal (a ++ b) = bal a + bal b := by
  simp only [bal, turnStartCount_append, turnEndCount_append]
  push_cast
  ring

theorem wellNested_nil (o : ℤ) (h0 : 0 ≤ o) (h1 : o ≤ 1) : WellNested o [] := by
  intro p q hpq
  obtain ⟨hp, -⟩ := List.append_eq_nil.mp hpq.symm
  subst hp
  simp [bal, turnStartCount, turnEndCount]
  omega

theorem wellNested_append {o : ℤ} {a b : List Eff}
    (ha : WellNested o a) (hb : WellNested (o + bal a) b) : WellNested o (a ++ b) := by
  intro p q hpq
  rcases List.append_eq_append_iff.mp hpq with ⟨a', hp, hb'⟩ | ⟨c', ha', hq⟩
  · subst hp
    have := hb a' q hb'
    rw [bal_append]
    constructor <;> omega
  · exact ha p c' ha'
theorem wellNested_neutral (o : ℤ) (t : List Eff)
    (hs : turnStartCount t = 0) (he : turnEndCount t = 0)
    (h0 : 0 ≤ o) (h1 : o ≤ 1) : WellNested o t := by
  intro p q hpq
  have hsp : turnStartCount p = 0 := by
    have := turnStartCount_append p q
    rw [← hpq, hs] at this
    omega
  have hep : turnEndCount p = 0 := by
    have := turnEndCount_append p q
    rw [← hpq, he] at this
    omega
  simp [bal, hsp, hep]
  omega

theorem wellNested_start : WellNested 0 [Eff.turnStart] := by
  intro p q hpq
  cases p with
  | nil => simp [bal, turnStartCount, turnEndCount]
  | cons x xs =>
    simp only [List.cons_append, List.cons.injEq] at hpq
    obtain ⟨hx, hxs⟩ := hpq
    obtain ⟨hxs', -⟩ := List.append_eq_nil.mp hxs.symm
    subst hx hxs'
    simp [bal, turnStartCount, turnEndCount]

theorem wellNested_end : WellNested 1 [Eff.turnEnd] := by
  intro p q hpq
  cases p with
  | nil => simp [bal, turnStartCount, turnEndCount]
  | cons x xs =>
    simp only [List.cons_append, List.cons.injEq] at hpq
    obtain ⟨hx, hxs⟩ := hpq
    obtain ⟨hxs', -⟩ := List.append_eq_nil.mp hxs.symm
    subst hx hxs'
    simp [bal, turnStartCount, turnEndCount]

theorem stages_turnStartCount (env : Env) (b : Bytes) :
    turnStartCount (run_turn_stages env b) = 0 :=
  List.count_eq_zero.mpr (turnStart_not_mem_stages env b)

theorem stages_turnEndCount (env : Env) (b : Bytes) :
    turnEndCount (run_turn_stages env b) = 0 :=
  List.count_eq_zero.mpr (turnEnd_not_mem_stages env b)

/-- The trace of a just-started turn task is well nested from zero open
turns and opens exactly one. -/
theorem trigger_wellNested (env : Env) (s : ProcState) :
    WellNested 0 (trigger_conversation_turn env s).2 ∧
    bal (trigger_conversation_turn env s).2 = 1 := by
  unfold trigger_conversation_turn
  split
  · refine ⟨wellNested_start, by simp [bal, turnStartCount, turnEndCount]⟩
  · constructor
    · show WellNested 0 ([Eff.turnStart] ++ run_turn_stages env [])
      refine wellNested_append wellNested_start ?_
      refine wellNested_neutral _ _ (stages_turnStartCount env _) (stages_turnEndCount env _)
        ?_ ?_ <;> simp [bal, turnStartCount, turnEndCount]
    · show bal (Eff.turnStart :: run_turn_stages env []) = 1
      simp only [bal, turnStartCount, turnEndCount, List.count_cons]
      rw [List.count_eq_zero.mpr (turnStart_not_mem_stages env _),
        List.count_eq_zero.mpr (turnEnd_not_mem_stages env _)]
      simp

theorem bal_frame_effs (raw pcm : Bytes) :
    bal [Eff.resampled raw, Eff.vadCall pcm] = 0 := by
  simp [bal, turnStartCount, turnEndCount]

theorem bal_turnEnd : bal [Eff.turnEnd] = -1 := by decide

theorem step_wellNested (env : Env) (s : Sess) (e : Ev) :
    WellNested (openN s.lockHeld) (stepEv env s e).2 ∧
    openN s.lockHeld + bal (stepEv env s e).2 = openN ((stepEv env s e).1).lockHeld := by
  cases e with
  | turnDone =>
    cases hlk : s.lockHeld with
    | true =>
      simp only [stepEv, hlk, if_true]
      refine ⟨wellNested_end, ?_⟩
      simp [bal, openN, turnStartCount, turnEndCount]
    | false =>
      simp only [stepEv, hlk, Bool.false_eq_true, if_false]
      refine ⟨wellNested_nil 0 le_rfl zero_le_one, ?_⟩
      simp [bal, openN, hlk, turnStartCount, turnEndCount]
  | frame raw cls =>
    cases hlk : s.lockHeld with
    | true =>
      simp only [stepEv, hlk, if_true]
      refine ⟨wellNested_nil 1 zero_le_one le_rfl, ?_⟩
      simp [bal, openN, hlk, turnStartCount, turnEndCount]
    | false =>
      simp only [stepEv, hlk, Bool.false_eq_true, if_false, openN]
      split
      · refine ⟨?_, ?_⟩
        · exact wellNested_neutral 0 _ (by simp [turnStartCount])
            (by simp [turnEndCount]) le_rfl zero_le_one
        · simp [bal, turnStartCount, turnEndCount]
      · split
        · constructor
          · refine wellNested_append ?_ ?_
            · refine wellNested_append (wellNested_neutral 0 _ (by simp [turnStartCount])
                (by simp [turnEndCount]) le_rfl zero_le_one) ?_
              have h0 : (0 : ℤ) + bal [Eff.resampled raw, Eff.vadCall (env.resample raw)] =
                  0 := by
                rw [bal_frame_effs]
                ring
              rw [h0]
              exact (trigger_wellNested env _).1
            · have h1 : (0 : ℤ) +
                  bal ([Eff.resampled raw, Eff.vadCall (env.resample raw)] ++
                    (trigger_conversation_turn env
                      (handle_vad s.proc cls (env.resample raw)).1).2) = 1 := by
                rw [bal_append, bal_frame_effs, (trigger_wellNested env _).2]
                ring
              rw [h1]
              exact wellNested_end
          · rw [bal_append, bal_append, bal_frame_effs, (trigger_wellNested env _).2,
              bal_turnEnd]
            norm_num
        · constructor
          · refine wellNested_append (wellNested_neutral 0 _ (by simp [turnStartCount])
              (by simp [turnEndCount]) le_rfl zero_le_one) ?_
            have h0 : (0 : ℤ) + bal [Eff.resampled raw, Eff.vadCall (env.resample raw)] =
                0 := by
              rw [bal_frame_effs]
              ring
            rw [h0]
            exact (trigger_wellNested env _).1
          · rw [bal_append, bal_frame_effs, (trigger_wellNested env _).2]
            norm_num

theorem trace_wellNested (env : Env) (evs : List Ev) :
    ∀ s : Sess, WellNested (openN s.lockHeld) (runEvents env s evs).2 ∧
      openN s.lockHeld + bal (runEvents env s evs).2 =
        openN ((runEvents env s evs).1).lockHeld := by
  induction evs with
  | nil =>
    intro s
    simp only [runEvents]
    refine ⟨wellNested_nil _ ?_ ?_, ?_⟩ <;>
      cases h : s.lockHeld <;> simp [openN, h, bal, turnStartCount, turnEndCount]
  | cons e rest ih =>
    intro s
    simp only [runEvents]
    obtain ⟨hw1, hb1⟩ := step_wellNested env s e
    obtain ⟨hw2, hb2⟩ := ih (stepEv env s e).1
    constructor
    · refine wellNested_append hw1 ?_
      rw [hb1]
      exact hw2
    · rw [bal_append, ← add_assoc, hb1, hb2]

/-- C4: per session, at most one turn pipeline run is ever in flight: in
every prefix of the session's effect trace the number of turn-task
completions never exceeds the number of starts, and starts exceed
completions by at most one, so a trigger issued while a run is open can
never open a second concurrent run; and while the turn lock is held an
inbound frame is discarded whole — no resampling, no VAD classification,
no buffering, no new turn start: the step leaves the state unchanged and
emits nothing (drop-newest, never queued). -/
theorem turn_exclusive_per_session (env : Env) :
    (∀ evs p q, (runEvents env initSess evs).2 = p ++ q →
      (turnEndCount p : ℤ) ≤ turnStartCount p ∧
        (turnStartCount p : ℤ) ≤ (turnEndCount p : ℤ) + 1) ∧
    (∀ (s : Sess) (raw : Bytes) (cls : VadOutcome), s.lockHeld = true →
      stepEv env s (Ev.frame raw cls) = (s, [])) := by
  constructor
  · intro evs p q hpq
    have hw := (trace_wellNested env evs initSess).1 p q hpq
    simp only [initSess, openN, Bool.false_eq_true, if_false, bal] at hw
    omega
  · intro s raw cls h
    simp [stepEv, h]

theorem turn_exclusive_per_session_witness :
    ((turnEndCount [] : ℤ) ≤ turnStartCount [] ∧
      (turnStartCount [] : ℤ) ≤ (turnEndCount [] : ℤ) + 1) ∧
    stepEv baseEnv ⟨initProc, true⟩ (Ev.frame [3] VadOutcome.speech) =
      (⟨initProc, true⟩, []) :=
  ⟨(turn_exclusive_per_session baseEnv).1 [] [] [] rfl,
   (turn_exclusive_per_session baseEnv).2 ⟨initProc, true⟩ [3] VadOutcome.speech rfl⟩

/-- C10: in every reachable session state (after any event sequence from
session creation), a session that is not Speaking has an empty speech
buffer and zeroed silence-frame and speech-duration counters — no stale
audio or counters ever carry over into the next utterance. -/
theorem idle_reachable_state_clean (env : Env) (evs : List Ev)
    (h : ((runEvents env initSess evs).1).proc.is_speaking = false) :
    ((runEvents env initSess evs).1).proc.audio_buffer = [] ∧
    ((runEvents env initSess evs).1).proc.silence_frames = 0 ∧
    ((runEvents env initSess evs).1).proc.speech_duration_ms = 0 :=
  (sessInv_run env initSess evs sessInv_init).1 h

theorem idle_reachable_state_clean_witness :
    ((runEvents baseEnv initSess []).1).proc.audio_buffer = [] ∧
    ((runEvents baseEnv initSess []).1).proc.silence_frames = 0 ∧
    ((runEvents baseEnv initSess []).1).proc.speech_duration_ms = 0 :=
  idle_reachable_state_clean baseEnv [] rfl

/-- C7: however a turn run exits — empty buffer, empty transcription,
client error or failure status from any stage, a raised exception
(every such behaviour is some `Env`), or full success — the speech state it
leaves behind is reset: Idle, empty buffer, zeroed counters; and the
completion of a turn task always leaves the session lock released, so the
next utterance can be buffered immediately. -/
theorem turn_exit_resets_state (env : Env) (s : ProcState) (t : Sess) :
    ((trigger_conversation_turn env s).1.is_speaking = false ∧
      (trigger_conversation_turn env s).1.audio_buffer = [] ∧
      (trigger_conversation_turn env s).1.silence_frames = 0 ∧
      (trigger_conversation_turn env s).1.speech_duration_ms = 0) ∧
    ((stepEv env t Ev.turnDone).1).lockHeld = false := by
  constructor
  · rw [trigger_resets]
    exact ⟨rfl, rfl, rfl, rfl⟩
  · cases h : t.lockHeld <;> simp [stepEv, h]

/-- C8: a turn whose transcription stage answers with empty or
whitespace-only text performs no answer-service call, no synthesis call
and enqueues no playback frames: its post-start effect trace is exactly
the one STT call. -/
theorem empty_transcription_aborts (env : Env) (b : Bytes) (body : SttBody)
    (hresp : env.stt b = CallOutcome.response 200 body)
    (hws : pyStrip (body.transcription.getD "") = "") :
    run_turn_stages env b = [Eff.sttCall b] := by
  unfold run_turn_stages transcribe_audio
  rw [hresp]
  simp [hws]

theorem empty_transcription_aborts_witness :
    run_turn_stages wsEnv [1] = [Eff.sttCall [1]] :=
  empty_transcription_aborts wsEnv [1] { transcription := none } rfl (by decide)

/-- C5 counterexample: with the answer stream
`[answer_chunk "hi", error "boom"]` the turn is not aborted on the error
event — the synthesis stage is invoked on the partial answer `"hi"` and a
playback frame is emitted. -/
theorem error_event_does_not_abort_turn :
    Eff.ttsCall "hi" ∈ run_turn_stages errStreamEnv [] ∧
    Eff.playFrame (2 :: List.replicate 959 0) ∈ run_turn_stages errStreamEnv [] := by
  decide

theorem govtAccum_filter (lines : List GovtLine) :
    govtAccum lines = govtAccum (lines.filter govtIsChunk) := by
  have key : ∀ (acc : String) (ls : List GovtLine),
      ls.foldl (fun acc line => acc ++ govtLineContribution line) acc =
      (ls.filter govtIsChunk).foldl (fun acc line => acc ++ govtLineContribution line)
        acc := by
    intro acc ls
    induction ls generalizing acc with
    | nil => rfl
    | cons l rest ih =>
      cases hck : govtIsChunk l with
      | true =>
        simp only [List.foldl_cons, List.filter_cons, hck, if_true]
        exact ih _
      | false =>
        have hc : govtLineContribution l = "" := by
          cases l with
          | none => rfl
          | some ev =>
            simp only [govtIsChunk, beq_iff_eq] at hck
            simp only [govtLineContribution]
            rw [if_neg]
            simpa using hck
        simp only [List.foldl_cons, List.filter_cons, hck, hc, Bool.false_eq_true,
          if_false]
        rw [show acc ++ "" = acc from by simp]
        exact ih acc
  exact key "" lines

/-- C5 amended: error events in the answer stream are ignored rather than
aborting the turn — the accumulated answer reads content only from
`answer_chunk` lines (dropping every other line, error events included,
changes nothing) — and, transcription having succeeded, the turn proceeds
to the synthesis stage exactly when that accumulated content is
non-empty. -/
theorem error_events_ignored (env : Env) (payload : Bytes) (body : SttBody)
    (lines : List GovtLine)
    (hstt : env.stt payload = CallOutcome.response 200 body)
    (hne : pyStrip (body.transcription.getD "") ≠ "")
    (hresp : env.govt (pyStrip (body.transcription.getD "")) =
      CallOutcome.response 200 lines) :
    query_govt_api env (pyStrip (body.transcription.getD "")) =
      Except.ok (some (govtAccum lines)) ∧
    govtAccum lines = govtAccum (lines.filter govtIsChunk) ∧
    (Eff.ttsCall (govtAccum lines) ∈ run_turn_stages env payload ↔
      govtAccum lines ≠ "") := by
  have hq : query_govt_api env (pyStrip (body.transcription.getD "")) =
      Except.ok (some (govtAccum lines)) := by
    unfold query_govt_api
    rw [hresp]
    simp
  refine ⟨hq, govtAccum_filter lines, ?_⟩
  have htr : transcribe_audio env payload =
      Except.ok (some (pyStrip (body.transcription.getD ""))) := by
    unfold transcribe_audio
    rw [hstt]
    simp [hne]
  unfold run_turn_stages
  simp only [htr, hq]
  by_cases hacc : govtAccum lines = ""
  · simp [hacc]
  · simp [hacc]

/-- C6 counterexample: two audio-track arrivals for the same participant
`"alice"` leave a single tracked session, but start two frame-consumption
tasks — the `asyncio.create_task(...)` call sits outside the
`if participant.identity not in processors` guard, so the second arrival
is not a no-op. -/
theorem second_arrival_starts_second_loop :
    (on_track_subscribed (on_track_subscribed ⟨[], []⟩ TrackKind.audio "alice")
        TrackKind.audio "alice").processors = ["alice"] ∧
    (on_track_subscribed (on_track_subscribed ⟨[], []⟩ TrackKind.audio "alice")
        TrackKind.audio "alice").frameLoops = ["alice", "alice"] := by
  decide

/-- C6 amended: a second audio-track arrival for an already-tracked
non-bot participant creates no new session state — the processor map is
unchanged — but it is not a no-op: every arrival starts one more
frame-consumption task for that session. -/
theorem tracked_arrival_reuses_session (st : RoomState) (pid : String)
    (hbot : pid ≠ BOT_IDENTITY) (hmem : pid ∈ st.processors) :
    (on_track_subscribed st TrackKind.audio pid).processors = st.processors ∧
    (on_track_subscribed st TrackKind.audio pid).frameLoops =
      st.frameLoops ++ [pid] := by
  simp [on_track_subscribed, hbot, hmem]

theorem tracked_arrival_reuses_session_witness :
    (on_track_subscribed ⟨["alice"], ["alice"]⟩ TrackKind.audio "alice").processors =
      ["alice"] ∧
    (on_track_subscribed ⟨["alice"], ["alice"]⟩ TrackKind.audio "alice").frameLoops =
      ["alice"] ++ ["alice"] :=
  tracked_arrival_reuses_session ⟨["alice"], ["alice"]⟩ "alice" (by decide) (by decide)

/-- For every environment and every non-empty speech buffer, the byte
string the turn hands to the transcription stage is `[]`:
`buffered_audio` aliases the session's one `bytearray`, which
`reset_speech_state` clears in place before `transcribe_audio` reads it. -/
theorem trigger_stt_payload_empty (env : Env) (s : ProcState)
    (h : ¬ s.audio_buffer = []) :
    ∃ rest, (trigger_conversation_turn env s).2 =
      Eff.turnStart :: Eff.sttCall [] :: rest := by
  unfold trigger_conversation_turn
  rw [if_neg h]
  exact ⟨_, rfl⟩

/-- C1 (code bug): end-to-end, a session that buffers five speech-classified
frames and then 24 silence frames fires exactly one turn, but the payload
handed to the transcription stage is the empty byte string, not the five
buffered bytes: `buffered_audio = self.audio_buffer` aliases the session's
`bytearray`, and `reset_speech_state()` runs `self.audio_buffer.clear()` on
that same object before `transcribe_audio(buffered_audio)` reads it (the
same holds for a 2 s utterance of 67 frames, `trigger_stt_payload_empty`). -/
theorem turn_hands_empty_bytes_to_stt :
    Eff.sttCall [] ∈
      (runEvents baseEnv initSess
        (List.replicate 5 (Ev.frame [7] VadOutcome.speech) ++
          List.replicate 24 (Ev.frame [0] VadOutcome.noSpeech))).2 ∧
    Eff.sttCall (List.replicate 5 7) ∉
      (runEvents baseEnv initSess
        (List.replicate 5 (Ev.frame [7] VadOutcome.speech) ++
          List.replicate 24 (Ev.frame [0] VadOutcome.noSpeech))).2 ∧
    turnStartCount
      (runEvents baseEnv initSess
        (List.replicate 5 (Ev.frame [7] VadOutcome.speech) ++
          List.replicate 24 (Ev.frame [0] VadOutcome.noSpeech))).2 = 1 := by
  decide

/-- Chunking a 961-sample payload yields one full 960-sample frame and one
zero-padded final frame. -/
theorem chunkPcm_replicate_961 (x : Int) :
    chunkPcm (List.replicate 961 x) =
      [List.replicate 960 x, x :: List.replicate 959 0] := by
  have hrepl : List.replicate 961 x = x :: List.replicate 960 x := List.replicate_succ x 960
  unfold chunkPcm
  rw [List.length_replicate, hrepl]
  rw [show (961 : Nat) = 960 + 1 from rfl]
  rw [chunkPcmAux]
  rw [← hrepl]
  rw [show PLAYBACK_FRAME_SIZE = 960 from rfl, List.take_replicate, List.drop_replicate]
  norm_num
  rw [show (960 : Nat) = 959 + 1 from rfl]
  rw [chunkPcmAux]
  rw [show ([x] : List Int) = List.replicate 1 x from rfl]
  rw [show PLAYBACK_FRAME_SIZE = 960 from rfl, List.take_replicate, List.drop_replicate]
  rw [show (960 ⊓ 1 : Nat) = 1 from rfl, show (1 - 960 : Nat) = 0 from rfl]
  rw [show List.replicate 0 x = ([] : List Int) from rfl]
  rw [show List.replicate 1 x = ([x] : List Int) from rfl]
  rw [show chunkPcmAux 959 ([] : List Int) = [] from rfl]
  simp

theorem play_interleaveEnv_one :
    play_audio_to_room interleaveEnv [1] =
      [Eff.playFrame (List.replicate 960 5),
       Eff.playFrame ((5 : Int) :: List.replicate 959 0)] := by
  show List.map Eff.playFrame (chunkPcm (List.replicate 961 5)) = _
  rw [chunkPcm_replicate_961]
  rfl

theorem play_interleaveEnv_two :
    play_audio_to_room interleaveEnv [2] =
      [Eff.playFrame (List.replicate 960 9),
       Eff.playFrame ((9 : Int) :: List.replicate 959 0)] := by
  show List.map Eff.playFrame (chunkPcm (List.replicate 961 9)) = _
  rw [chunkPcm_replicate_961]
  rfl

theorem replicate960_ne_cons (a b : Int) (hab : a ≠ b) (t : List Int) :
    List.replicate 960 a ≠ b :: t := by
  rw [show (960 : Nat) = 959 + 1 from rfl, List.replicate_succ]
  intro h
  injection h with h1 _
  exact hab h1

/-- C2 (code bug): playback is not serialized across sessions.  Every
`capture_frame` in `play_audio_to_room` is followed by an awaited
`asyncio.sleep` — a yield point — so when two sessions' turn tasks play
payloads concurrently, the shared outbound track can receive any
interleaving of the two frame sequences; the alternating schedule yields a
frame order that is neither all of the first payload before the second nor
the reverse. -/
theorem playback_frames_can_interleave :
    mergeSchedule [true, false] (play_audio_to_room interleaveEnv [1])
        (play_audio_to_room interleaveEnv [2]) ≠
      play_audio_to_room interleaveEnv [1] ++ play_audio_to_room interleaveEnv [2] ∧
    mergeSchedule [true, false] (play_audio_to_room interleaveEnv [1])
        (play_audio_to_room interleaveEnv [2]) ≠
      play_audio_to_room interleaveEnv [2] ++ play_audio_to_room interleaveEnv [1] := by
  rw [play_interleaveEnv_one, play_interleaveEnv_two]
  simp only [mergeSchedule, List.cons_append, List.nil_append]
  constructor
  · intro h
    injection h with h1 h2
    injection h2 with h3 h4
    injection h3 with h5
    exact replicate960_ne_cons 9 5 (by decide) _ h5
  · intro h
    injection h with h1 h2
    injection h1 with h5
    have h9 : List.replicate 960 (9 : Int) = 9 :: List.replicate 959 9 := by
      rw [show (960 : Nat) = 959 + 1 from rfl, List.replicate_succ]
    rw [h9] at h5
    exact replicate960_ne_cons 5 9 (by decide) _ h5

theorem silence_turn_threshold_witness :
    turnStartCount (runEvents baseEnv ⟨⟨[5], true, 0, 30⟩, false⟩
        (noSpeechEvents (List.replicate 24 [0]))).2 = 1 ∧
    ((runEvents baseEnv ⟨⟨[5], true, 0, 30⟩, false⟩
        (noSpeechEvents (List.replicate 24 [0]))).1).proc = initProc :=
  (silence_turn_threshold baseEnv ⟨⟨[5], true, 0, 30⟩, false⟩ (List.replicate 24 [0])
    rfl rfl rfl (by decide)).2 (by decide)

theorem max_duration_triggers_turn_witness :
    1 ≤ turnStartCount (runEvents baseEnv initSess
        (speechEvents (List.replicate 667 ([] : Bytes)))).2 :=
  (max_duration_triggers_turn baseEnv (List.replicate 667 [])).2 (by decide)

theorem error_events_ignored_witness :
    query_govt_api errStreamEnv (pyStrip ((some "hello" : Option String).getD "")) =
      Except.ok (some (govtAccum
        [some { type := some "answer_chunk", content := some "hi" },
         some { type := some "error", content := some "boom" }])) ∧
    govtAccum
        [some { type := some "answer_chunk", content := some "hi" },
         some { type := some "error", content := some "boom" }] =
      govtAccum
        (List.filter govtIsChunk
          [some { type := some "answer_chunk", content := some "hi" },
           some { type := some "error", content := some "boom" }]) ∧
    (Eff.ttsCall (govtAccum
        [some { type := some "answer_chunk", content := some "hi" },
         some { type := some "error", content := some "boom" }]) ∈
        run_turn_stages errStreamEnv [] ↔
      govtAccum
        [some { type := some "answer_chunk", content := some "hi" },
         some { type := some "error", content := some "boom" }] ≠ "") :=
  error_events_ignored errStreamEnv [] { transcription := some "hello" }
    [some { type := some "answer_chunk", content := some "hi" },
     some { type := some "error", content := some "boom" }]
    rfl (by decide) rfl

end Orchestrator
